import Mathlib

unseal Rat.mul Rat.add Rat.inv Rat.sub

set_option maxRecDepth 100000

/-!
Shallow embedding of the core components of the soccer-video-analysis
repository (`src/components/*.py`) together with proofs of the properties
claimed by its specification.

Modelling conventions, used uniformly below:

* Pixel coordinates and times are rationals (`ℚ`).  All claim-relevant
  Python arithmetic on them is exact (additions, subtractions, divisions
  by non-zero values, comparisons).
* Python computes Euclidean distances as `(dx**2 + dy**2) ** 0.5` and only
  ever compares the result against a non-negative threshold or against
  another such distance.  Since `Real.sqrt` is strictly monotone on
  non-negative inputs, every such comparison is embedded on squared
  distances (`sqrt a < sqrt b ↔ a < b`, and `sqrt a < c ↔ a < c * c` for
  `c ≥ 0`), which keeps all computations inside `ℚ`.  The same applies to
  speeds (`speed ≥ s ↔ vx² + vy² ≥ s²`).
* `uuid.uuid4()` identifiers are modelled by a deterministic counter
  (`toString n`); no claim depends on identifier values.
* Python `for`/`while` loops that walk an index range are embedded either
  structurally over lists or with an explicit fuel initialised to the
  frame-list length; each loop's own index guard exits before the fuel
  can run out, so the fuel never changes the result.
-/

namespace Soccer

/-- One observation of one tracked entity at one video frame
(`components/tracking.py`, `TrackFrame`). -/
structure TrackFrame where
  frame_index : Nat
  time_s : ℚ
  x : ℚ
  y : ℚ
  x1 : ℚ
  y1 : ℚ
  x2 : ℚ
  y2 : ℚ
deriving DecidableEq

/-- One continuous or merged identity (`components/tracking.py`, `Track`). -/
structure Track where
  track_id : String
  label : String
  frames : List TrackFrame
  team_color : Option String := none
  jersey_number : Option String := none
deriving DecidableEq

/-- Immutable pair of player and ball tracks (`components/tracking.py`,
`TrackingResult`). -/
structure TrackingResult where
  player_tracks : List Track
  ball_tracks : List Track
deriving DecidableEq

/-- Squared Euclidean distance between two points; every Python distance
comparison below is embedded through it (see the module comment). -/
def distSq (px py qx qy : ℚ) : ℚ :=
  (px - qx) * (px - qx) + (py - qy) * (py - qy)

/-- Python dict built from a list of key-value pairs: later insertions
overwrite earlier ones; looking up an absent key gives `none`. -/
def pyDict {α β : Type} [DecidableEq α] (pairs : List (α × β)) : α → Option β :=
  pairs.foldl (fun m kv => fun a => if a = kv.1 then some kv.2 else m a) (fun _ => none)

/-- Inserts `x` behind every element whose key is not greater, so that a
left fold over the input yields Python's stable `sorted`. -/
def insertBy {α β : Type} [LinearOrder β] (key : α → β) (x : α) : List α → List α
  | [] => [x]
  | y :: ys => if key x < key y then x :: y :: ys else y :: insertBy key x ys

/-- Python's stable `sorted(xs, key=key)`. -/
def pySorted {α β : Type} [LinearOrder β] (key : α → β) (xs : List α) : List α :=
  xs.foldl (fun acc x => insertBy key x acc) []

/-- Python's `max(tracks, key=lambda t: len(t.frames))`: the first maximal
element wins ties; `none` on the empty list (where Python raises, but
every call site in the sources guards non-emptiness first). -/
def primaryBallTrack (tracks : List Track) : Option Track :=
  tracks.foldl (fun best t =>
    match best with
    | none => some t
    | some b => if b.frames.length < t.frames.length then some t else some b) none

/-- Python `max(xs)` over a non-empty list of rationals (`0` for the empty
list, which never occurs at the guarded call sites below). -/
def listMax : List ℚ → ℚ
  | [] => 0
  | x :: rest => rest.foldl max x

/-- Python `min(xs)` over a non-empty list of rationals (`0` for the empty
list, which never occurs at the guarded call sites below). -/
def listMin : List ℚ → ℚ
  | [] => 0
  | x :: rest => rest.foldl min x

/-- Python `frames[-1]` as an option (`none` on the empty list, where
Python raises; every call site guards non-emptiness first). -/
def pyLastFrame : List TrackFrame → Option TrackFrame
  | [] => none
  | [f] => some f
  | _ :: f :: rest => pyLastFrame (f :: rest)

/-! ### Substitution linker (`components/substitution_linking.py`) -/

/-- Python's `track1.jersey_number or track2.jersey_number`: `None` and the
empty string are falsy. -/
def pyOrStr : Option String → Option String → Option String
  | some s, b => if s = "" then b else some s
  | none, b => b

/-- Embeds `substitution_linking._merge_tracks`: concatenate the frame
lists, re-sort stably by `time_s`, keep `track1`'s identity fields. -/
def merge_tracks (track1 track2 : Track) : Track :=
  { track1 with
      frames := pySorted (fun f => f.time_s) (track1.frames ++ track2.frames),
      jersey_number := pyOrStr track1.jersey_number track2.jersey_number }

/-- Appends `tid` to the group keyed by `j`, creating the group at the end
on first sight — Python's insertion-ordered
`jersey_map.setdefault(track.jersey_number, []).append(track.track_id)`. -/
def addToGroup : List (Option String × List String) → Option String → String →
    List (Option String × List String)
  | [], j, tid => [(j, [tid])]
  | (k, ids) :: rest, j, tid =>
      if k = j then (k, ids ++ [tid]) :: rest else (k, ids) :: addToGroup rest j tid

/-- The `jersey_map` of `link_substitutions`, in Python dict insertion
order. -/
def jerseyGroups (tracks : List Track) : List (Option String × List String) :=
  tracks.foldl (fun acc t => addToGroup acc t.jersey_number t.track_id) []

/-- Sort key `track_map[tid].frames[0].time_s` used inside
`link_substitutions`.  On a track with an empty frame list Python's
`frames[0]` raises `IndexError`; the embedding returns `0` there, and the
theorems below that quantify over all inputs assume non-empty frame lists,
where the two semantics agree. -/
def firstTime (track_map : String → Option Track) (tid : String) : ℚ :=
  match track_map tid with
  | some t =>
      match t.frames with
      | f :: _ => f.time_s
      | [] => 0
  | none => 0

/-- The consecutive-pair linking loop of `link_substitutions` (the body of
`for i in range(len(sorted_ids) - 1)`), threading the `replacements`
association list and the `merged_ids` set through one jersey group. -/
def pairLoop (track_map : String → Option Track) (max_time_gap_s max_position_dist_px : ℚ) :
    List String → List (String × String) × List String → List (String × String) × List String
  | [], acc => acc
  | [_], acc => acc
  | old_id :: new_id :: rest, (replacements, merged) =>
      match track_map old_id, track_map new_id with
      | some old_track, some new_track =>
          match old_track.frames.getLast?, new_track.frames.head? with
          | some old_last, some new_first =>
              let time_gap := new_first.time_s - old_last.time_s
              if time_gap > max_time_gap_s ∨ time_gap < 0 then
                pairLoop track_map max_time_gap_s max_position_dist_px (new_id :: rest)
                  (replacements, merged)
              else if distSq old_last.x old_last.y new_first.x new_first.y >
                  max_position_dist_px * max_position_dist_px then
                pairLoop track_map max_time_gap_s max_position_dist_px (new_id :: rest)
                  (replacements, merged)
              else
                pairLoop track_map max_time_gap_s max_position_dist_px (new_id :: rest)
                  (replacements ++ [(new_id, old_id)], merged ++ [new_id])
          | _, _ =>
              pairLoop track_map max_time_gap_s max_position_dist_px (new_id :: rest)
                (replacements, merged)
      | _, _ =>
          pairLoop track_map max_time_gap_s max_position_dist_px (new_id :: rest)
            (replacements, merged)

/-- Builds `replacements` and `merged_ids` across all jersey groups; groups
with key `None` or at most one member are skipped. -/
def buildReplacements (track_map : String → Option Track)
    (max_time_gap_s max_position_dist_px : ℚ)
    (groups : List (Option String × List String)) :
    List (String × String) × List String :=
  groups.foldl (fun acc g =>
    match g.1 with
    | none => acc
    | some _ =>
        if g.2.length ≤ 1 then acc
        else pairLoop track_map max_time_gap_s max_position_dist_px
          (pySorted (firstTime track_map) g.2) acc) ([], [])

/-- Replaces the first track whose id is `target` by its merge with
`track` — the inner `for j, t in enumerate(updated_tracks) ... break` of
`link_substitutions`. -/
def setFirstMatch (target : String) (track : Track) : List Track → List Track
  | [] => []
  | t :: ts =>
      if t.track_id = target then merge_tracks t track :: ts
      else t :: setFirstMatch target track ts

/-- One iteration of the second (merge) loop of `link_substitutions`.
The loop is dead in practice — every key of `replacements` was removed
from `updated_tracks` by the preceding filter — but it is embedded all the
same. -/
def mergeStep (replacements : List (String × String)) (tracks : List Track) (i : Nat) :
    List Track :=
  match tracks.get? i with
  | none => tracks
  | some track =>
      match pyDict replacements track.track_id with
      | none => tracks
      | some target => setFirstMatch target track tracks

/-- Embeds `substitution_linking.link_substitutions`. -/
def link_substitutions (tracking : TrackingResult)
    (max_time_gap_s : ℚ := 5) (max_position_dist_px : ℚ := 100) : TrackingResult :=
  if tracking.player_tracks.length < 2 then tracking
  else
    let player_tracks := tracking.player_tracks
    let track_map := pyDict (player_tracks.map fun t => (t.track_id, t))
    let rm := buildReplacements track_map max_time_gap_s max_position_dist_px
      (jerseyGroups player_tracks)
    let updated := player_tracks.filter (fun t => ! rm.2.contains t.track_id)
    let final := (List.range updated.length).foldl (mergeStep rm.1) updated
    { player_tracks := final, ball_tracks := tracking.ball_tracks }

/-! ### Possession segmenter (`components/possession.py`) -/

/-- One inferred possession interval (`possession.PossessionSegment`). -/
structure PossessionSegment where
  possession_id : String
  team_color : Option String
  player_track_id : Option String
  start_time_s : ℚ
  end_time_s : ℚ
  start_frame : Option Nat := none
  end_frame : Option Nat := none
deriving DecidableEq

/-- The first frame of `track` carrying `idx` — Python's
`for f in track.frames: if f.frame_index == ...: ...; break`. -/
def trackFrameAt (track : Track) (idx : Nat) : Option TrackFrame :=
  track.frames.find? (fun f => f.frame_index == idx)

/-- One step of the nearest-player scan shared verbatim by
`possession._find_nearest_player_at_frame` and
`action_recognition._find_nearest_player`; the state is
`(min_dist², nearest)` and only a strictly smaller distance replaces the
current candidate. -/
def nearestStep (ball_frame : TrackFrame) (st : ℚ × Option Track) (track : Track) :
    ℚ × Option Track :=
  match trackFrameAt track ball_frame.frame_index with
  | none => st
  | some f =>
      if distSq f.x f.y ball_frame.x ball_frame.y < st.1 then
        (distSq f.x f.y ball_frame.x ball_frame.y, some track)
      else st

/-- Embeds `possession._find_nearest_player_at_frame` (the state starts at
`max_dist²` because all stored values are squared distances). -/
def find_nearest_player_at_frame (ball_frame : TrackFrame) (player_tracks : List Track)
    (max_dist : ℚ := 100) : Option Track :=
  (player_tracks.foldl (nearestStep ball_frame) (max_dist * max_dist, none)).2

/-- Mutable loop state of `infer_possessions`: emitted segments, current
owner, pending segment start, and the deterministic uuid counter. -/
structure PossState where
  possessions : List PossessionSegment
  current_owner_id : Option String
  segment_start_frame : Option Nat
  segment_start_time : Option ℚ
  next_id : Nat
deriving DecidableEq

/-- Initial loop state of `infer_possessions`. -/
def initPossState : PossState := ⟨[], none, none, none, 0⟩

/-- Closes the pending possession segment at `(end_time, end_frame)`,
emitting it when all three pending fields are set and the elapsed duration
reaches `min_segment_duration` — the emission block inside
`if owner_id != current_owner_id` (also reused by the final flush). -/
def closePending (track_map : String → Option Track) (min_segment_duration : ℚ)
    (st : PossState) (end_time : ℚ) (end_frame : Nat) :
    List PossessionSegment × Nat :=
  match st.current_owner_id, st.segment_start_frame, st.segment_start_time with
  | some owner, some sf, some stime =>
      if min_segment_duration ≤ end_time - stime then
        (st.possessions ++
          [{ possession_id := toString st.next_id,
             team_color := (track_map owner).bind Track.team_color,
             player_track_id := some owner,
             start_time_s := stime,
             end_time_s := end_time,
             start_frame := some sf,
             end_frame := some end_frame }], st.next_id + 1)
      else (st.possessions, st.next_id)
  | _, _, _ => (st.possessions, st.next_id)

/-- Body of the per-ball-frame loop of `infer_possessions`. -/
def possessionStep (player_tracks : List Track) (track_map : String → Option Track)
    (max_ball_distance min_segment_duration : ℚ) (st : PossState) (ball_frame : TrackFrame) :
    PossState :=
  let owner_id := (find_nearest_player_at_frame ball_frame player_tracks max_ball_distance).map
    Track.track_id
  if owner_id = st.current_owner_id then st
  else
    let closed := closePending track_map min_segment_duration st ball_frame.time_s
      ball_frame.frame_index
    { possessions := closed.1,
      current_owner_id := owner_id,
      segment_start_frame := some ball_frame.frame_index,
      segment_start_time := some ball_frame.time_s,
      next_id := closed.2 }

/-- The per-ball-frame loop of `infer_possessions`, written as structural
recursion over the ball frames. -/
def possessionScan (player_tracks : List Track) (track_map : String → Option Track)
    (max_ball_distance min_segment_duration : ℚ) :
    PossState → List TrackFrame → PossState
  | st, [] => st
  | st, f :: rest =>
      possessionScan player_tracks track_map max_ball_distance min_segment_duration
        (possessionStep player_tracks track_map max_ball_distance min_segment_duration st f) rest

/-- The final flush of `infer_possessions`, closing a still-open segment at
the last ball frame under the same duration filter. -/
def flushPossessions (track_map : String → Option Track) (min_segment_duration : ℚ)
    (st : PossState) (final_frame : TrackFrame) : List PossessionSegment :=
  (closePending track_map min_segment_duration st final_frame.time_s
    final_frame.frame_index).1

/-- Embeds `possession.infer_possessions` (the unused `video_path`
parameter is kept from the source signature). -/
def infer_possessions (video_path : String) (track_data : TrackingResult)
    (max_ball_distance : ℚ := 60) (min_segment_duration : ℚ := 1 / 10) :
    List PossessionSegment :=
  if track_data.ball_tracks = [] ∨ track_data.player_tracks = [] then []
  else
    match primaryBallTrack track_data.ball_tracks with
    | none => []
    | some ball_track =>
        if ball_track.frames = [] then []
        else
          let track_map := pyDict (track_data.player_tracks.map fun t => (t.track_id, t))
          let final := possessionScan track_data.player_tracks track_map max_ball_distance
            min_segment_duration initPossState ball_track.frames
          match pyLastFrame ball_track.frames with
          | none => final.possessions
          | some final_frame => flushPossessions track_map min_segment_duration final final_frame

/-- Well-formedness of one possession segment relative to the ball frames
`F`: both frame bounds are set, ordered, and each is the frame index of a
frame of `F`. -/
def SegWF (F : List TrackFrame) (seg : PossessionSegment) : Prop :=
  ∃ s e : Nat, seg.start_frame = some s ∧ seg.end_frame = some e ∧ s ≤ e ∧
    (∃ p ∈ F, p.frame_index = s) ∧ (∃ q ∈ F, q.frame_index = e)

/-- Segment `a` ends no later (in frame index) than segment `b` starts. -/
def SegBefore (a b : PossessionSegment) : Prop :=
  ∀ ea sb : Nat, a.end_frame = some ea → b.start_frame = some sb → ea ≤ sb

/-- Upper bound on a segment's end frame (when it is set). -/
def EndLE (seg : PossessionSegment) (n : Nat) : Prop :=
  ∀ e, seg.end_frame = some e → e ≤ n

/-- Loop invariant of `possessionScan` relative to the full ball-frame
list `F` and the still-unprocessed suffix `rest`: all emitted segments are
well formed and chained, a pending start is the index of a seen frame, is
a lower bound on every remaining frame and an upper bound on every emitted
end, and no segment is emitted before the first pending start. -/
def PossInv (F rest : List TrackFrame) (st : PossState) : Prop :=
  (∀ seg ∈ st.possessions, SegWF F seg) ∧
  st.possessions.Pairwise SegBefore ∧
  (∀ p, st.segment_start_frame = some p →
    (∃ q ∈ F, q.frame_index = p) ∧ (∀ f ∈ rest, p ≤ f.frame_index) ∧
      (∀ seg ∈ st.possessions, EndLE seg p)) ∧
  (st.segment_start_frame = none → st.possessions = [])

/-! ### Phase segmenter (`components/phase_segmentation.py`) -/

/-- One detected match-phase interval (`phase_segmentation.PhaseSegment`);
`segment_game_phases` never populates the two frame bounds. -/
structure PhaseSegment where
  period : Nat
  phase : String
  start_time_s : ℚ
  end_time_s : ℚ
  start_frame : Option Nat := none
  end_frame : Option Nat := none
deriving DecidableEq

/-- Dwell-then-spike scan shared by `_detect_kickoff_time` and
`_detect_second_half_kickoff` (their `for idx in range(..., len(frames)-1)`
loops have identical bodies and constants).  The Python body also binds
`prev = frames[idx - 1]` but never uses it; the speed is the forward
difference between `frames[idx]` and `frames[idx + 1]`, compared squared
(`speed ≥ 80 ↔ vx² + vy² ≥ 80²`).  The fuel starts at `frames.length`,
which the guard `idx + 1 < frames.length` never lets the loop outrun. -/
def kickoffScan (frames : List TrackFrame) : Nat → Nat → Option ℚ
  | 0, _ => none
  | fuel + 1, idx =>
      if h : idx + 1 < frames.length then
        let window := (frames.drop (idx - 5)).take 5
        let xs := window.map TrackFrame.x
        let ys := window.map TrackFrame.y
        if listMax xs - listMin xs > 10 ∨ listMax ys - listMin ys > 10 then
          kickoffScan frames fuel (idx + 1)
        else
          let curr := frames.get ⟨idx, by omega⟩
          let next := frames.get ⟨idx + 1, h⟩
          let dt := max (next.time_s - curr.time_s) (1 / 1000)
          let vx := (next.x - curr.x) / dt
          let vy := (next.y - curr.y) / dt
          if vx * vx + vy * vy ≥ 80 * 80 then some curr.time_s
          else kickoffScan frames fuel (idx + 1)
      else none

/-- Embeds `phase_segmentation._detect_kickoff_time`. -/
def detect_kickoff_time (tracking : TrackingResult) : Option ℚ :=
  match primaryBallTrack tracking.ball_tracks with
  | none => none
  | some ball_track =>
      if ball_track.frames.length < 3 then none
      else kickoffScan ball_track.frames ball_track.frames.length 5

/-- Inner loop of `_detect_halftime` (`for end_idx in range(idx + 30,
len(frames))`): looks for the first later window whose spatial range
exceeds the activity threshold; `none` covers both the Python `break`
(halftime too short) and loop exhaustion, after which the outer scan
continues.  The future window `frames[end_idx : end_idx + 30]` is never
empty for `end_idx < len(frames)`, so the Python `if not future_window:
break` guard never fires inside the range. -/
def halftimeInner (frames : List TrackFrame) (halftime_start_s : ℚ) :
    Nat → Nat → Option (ℚ × ℚ)
  | 0, _ => none
  | fuel + 1, end_idx =>
      if h : end_idx < frames.length then
        let fw := (frames.drop end_idx).take 30
        let fxs := fw.map TrackFrame.x
        let fys := fw.map TrackFrame.y
        if max (listMax fxs - listMin fxs) (listMax fys - listMin fys) > 50 then
          let halftime_end_s := (frames.get ⟨end_idx, h⟩).time_s
          if halftime_end_s - halftime_start_s ≥ 300 then
            some (halftime_start_s, halftime_end_s)
          else none
        else halftimeInner frames halftime_start_s fuel (end_idx + 1)
      else none

/-- Outer loop of `_detect_halftime` (`for idx in range(len(frames) -
30)`): a window is quiet when its spatial range is below the threshold;
`window[0]` is `frames[idx]`, and the window is never empty inside the
range, so the Python `if not window: continue` guard never fires. -/
def halftimeOuter (frames : List TrackFrame) : Nat → Nat → Option (ℚ × ℚ)
  | 0, _ => none
  | fuel + 1, idx =>
      if h : idx + 30 < frames.length then
        let w := (frames.drop idx).take 30
        let xs := w.map TrackFrame.x
        let ys := w.map TrackFrame.y
        if max (listMax xs - listMin xs) (listMax ys - listMin ys) < 50 then
          match halftimeInner frames (frames.get ⟨idx, by omega⟩).time_s frames.length
              (idx + 30) with
          | some res => some res
          | none => halftimeOuter frames fuel (idx + 1)
        else halftimeOuter frames fuel (idx + 1)
      else none

/-- Embeds `phase_segmentation._detect_halftime`.  The source receives
`kickoff_time_s` but never reads it: the quiet-window scan starts at frame
index `0`, irrespective of the detected kickoff. -/
def detect_halftime (tracking : TrackingResult) (kickoff_time_s : ℚ) : Option (ℚ × ℚ) :=
  match primaryBallTrack tracking.ball_tracks with
  | none => none
  | some ball_track =>
      if ball_track.frames.length < 20 then none
      else halftimeOuter ball_track.frames ball_track.frames.length 0

/-- Python's `next((i for i, f in enumerate(frames) if f.time_s >= t), d)`
without its default (the caller applies `Option.getD`). -/
def pyNextIdx (t : ℚ) : List TrackFrame → Nat → Option Nat
  | [], _ => none
  | f :: fs, i => if f.time_s ≥ t then some i else pyNextIdx t fs (i + 1)

/-- Embeds `phase_segmentation._detect_second_half_kickoff`. -/
def detect_second_half_kickoff (tracking : TrackingResult) (halftime_end_s : ℚ) : Option ℚ :=
  match primaryBallTrack tracking.ball_tracks with
  | none => none
  | some ball_track =>
      let frames := ball_track.frames
      if frames.length < 3 then none
      else
        let start_idx := (pyNextIdx halftime_end_s frames 0).getD 0
        if start_idx + 3 ≥ frames.length then none
        else kickoffScan frames frames.length (start_idx + 5)

/-- Embeds `phase_segmentation.segment_game_phases` on an explicitly given
`TrackingResult` (when `tracking is None` the source first runs the
external `run_tracking` collaborator, which is out of scope here;
`line_color` is discarded by the source via `_ = line_color`).  In the
fallback branch the source reads `frames[-1]` of the primary ball track;
halftime detection guarantees that track exists and is non-empty, so the
`none` defaults of the embedding are unreachable. -/
def segment_game_phases (video_path : String) (tracking : TrackingResult)
    (line_color : Option String) : List PhaseSegment :=
  match detect_kickoff_time tracking with
  | none => []
  | some kickoff_time_s =>
      match detect_halftime tracking kickoff_time_s with
      | none =>
          [{ period := 1, phase := "first_half", start_time_s := kickoff_time_s,
             end_time_s := kickoff_time_s }]
      | some (halftime_start_s, halftime_end_s) =>
          let base : List PhaseSegment :=
            [{ period := 1, phase := "first_half", start_time_s := kickoff_time_s,
               end_time_s := halftime_start_s },
             { period := 1, phase := "halftime", start_time_s := halftime_start_s,
               end_time_s := halftime_end_s }]
          match detect_second_half_kickoff tracking halftime_end_s with
          | some second_kickoff_s =>
              base ++ [{ period := 2, phase := "second_half",
                         start_time_s := second_kickoff_s, end_time_s := second_kickoff_s }]
          | none =>
              match primaryBallTrack tracking.ball_tracks with
              | some bt =>
                  base ++ [{ period := 2, phase := "second_half",
                             start_time_s := halftime_end_s,
                             end_time_s := ((pyLastFrame bt.frames).map TrackFrame.time_s).getD 0 }]
              | none => base

/-! ### Action recogniser (`components/action_recognition.py`) -/

/-- Detector output before enrichment (`action_recognition.ActionCandidate`). -/
structure ActionCandidate where
  action : String
  subaction : Option String
  start_frame : Nat
  end_frame : Nat
  start_time_s : ℚ
  end_time_s : ℚ
  player_track_id : Option String
  ball_track_id : Option String
  start_x : ℚ
  start_y : ℚ
  end_x : ℚ
  end_y : ℚ
  confidence : ℚ
deriving DecidableEq

/-- Embeds `action_recognition._find_nearest_player` — line for line the
same scan as `possession._find_nearest_player_at_frame`, so it shares
`nearestStep`. -/
def find_nearest_player (frame_pos : TrackFrame) (player_tracks : List Track)
    (max_dist : ℚ := 100) : Option Track :=
  (player_tracks.foldl (nearestStep frame_pos) (max_dist * max_dist, none)).2

/-- Embeds `action_recognition._find_all_nearby_players`: the tracks (in
input order) whose frame at this index lies strictly within `max_dist`. -/
def find_all_nearby_players (frame_pos : TrackFrame) (player_tracks : List Track)
    (max_dist : ℚ := 100) : List Track :=
  player_tracks.filter fun track =>
    match trackFrameAt track frame_pos.frame_index with
    | some f => decide (distSq f.x f.y frame_pos.x frame_pos.y < max_dist * max_dist)
    | none => false

/-- Embeds `action_recognition._same_team`. -/
def same_team (player1 player2 : Track) : Bool :=
  player1.team_color != none && player1.team_color == player2.team_color

/-- Embeds `action_recognition._is_successful_pass` (receiver within 50px
of the ball at the pass's final frame). -/
def is_successful_pass (passer receiver : Track) (ball_frame : TrackFrame) : Bool :=
  match trackFrameAt receiver ball_frame.frame_index with
  | some f => decide (distSq f.x f.y ball_frame.x ball_frame.y < 50 * 50)
  | none => false

/-- Embeds `action_recognition._near_goal`. -/
def near_goal (frame : TrackFrame) (length : ℚ) : Bool :=
  decide (frame.x < length * (5 / 100) ∨ frame.x > length * (95 / 100))

/-- Embeds `action_recognition._dribble_kept` (the `player_tracks`
parameter is unused in the source as well). -/
def dribble_kept (player_tracks : List Track) (player : Track) : Bool :=
  player.jersey_number != none

/-- Inner look-ahead of `_detect_passes` over `future_frames` with the
`j == 0` (current frame) entry already dropped by the caller; returns the
first qualifying candidate, mirroring the `append; break`. -/
def passLookahead (player_tracks : List Track) (ball_track_id : String)
    (frame : TrackFrame) (nearby_player : Track) :
    List TrackFrame → Option ActionCandidate
  | [] => none
  | future_frame :: rest =>
      match find_nearest_player future_frame player_tracks 50 with
      | none => passLookahead player_tracks ball_track_id frame nearby_player rest
      | some other_player =>
          if other_player.track_id == nearby_player.track_id then
            passLookahead player_tracks ball_track_id frame nearby_player rest
          else if ! same_team nearby_player other_player then
            passLookahead player_tracks ball_track_id frame nearby_player rest
          else if distSq future_frame.x future_frame.y frame.x frame.y < 30 * 30 then
            passLookahead player_tracks ball_track_id frame nearby_player rest
          else
            some { action := "pass",
                   subaction := some (if is_successful_pass nearby_player other_player
                     future_frame then "accurate" else "inaccurate"),
                   start_frame := frame.frame_index,
                   end_frame := future_frame.frame_index,
                   start_time_s := frame.time_s,
                   end_time_s := future_frame.time_s,
                   player_track_id := some nearby_player.track_id,
                   ball_track_id := some ball_track_id,
                   start_x := frame.x, start_y := frame.y,
                   end_x := future_frame.x, end_y := future_frame.y,
                   confidence := 7 / 10 }

/-- Outer loop of `_detect_passes` over every ball frame.  Python stops at
`len(frames) - 1`, but at the final frame the look-ahead list is empty and
nothing can be emitted, so scanning every suffix is equivalent;
`future_frames = frames[i : i + 90]` contains the current frame at `j = 0`,
leaving `rest.take 89` for the look-ahead. -/
def passScan (player_tracks : List Track) (ball_track_id : String) :
    List TrackFrame → List ActionCandidate
  | [] => []
  | frame :: rest =>
      match find_nearest_player frame player_tracks 50 with
      | none => passScan player_tracks ball_track_id rest
      | some nearby_player =>
          match passLookahead player_tracks ball_track_id frame nearby_player
              (rest.take 89) with
          | some c => c :: passScan player_tracks ball_track_id rest
          | none => passScan player_tracks ball_track_id rest

/-- Embeds `action_recognition._detect_passes`. -/
def detect_passes (ball_track : Track) (player_tracks : List Track) : List ActionCandidate :=
  if ball_track.frames.length < 10 then []
  else passScan player_tracks ball_track.track_id ball_track.frames

/-- Sliding prev/curr/next scan of `_detect_shots` (`for i in range(1,
len(frames) - 1)`); speeds are compared squared. -/
def shotScan (player_tracks : List Track) (ball_track_id : String) (pitch_dims : ℚ × ℚ) :
    List TrackFrame → List ActionCandidate
  | [] => []
  | prev_frame :: rest =>
      match rest with
      | curr_frame :: next_frame :: _ =>
          let length := pitch_dims.1
          let goal_threshold := length * (1 / 10)
          let dt := max (curr_frame.time_s - prev_frame.time_s) (1 / 1000)
          let vx := (next_frame.x - prev_frame.x) / (2 * dt)
          let vy := (next_frame.y - prev_frame.y) / (2 * dt)
          let tail := shotScan player_tracks ball_track_id pitch_dims rest
          if vx * vx + vy * vy < 100 * 100 then tail
          else if curr_frame.x > length - goal_threshold ∨ curr_frame.x < goal_threshold then
            { action := "shoot",
              subaction := some (if near_goal curr_frame length then "goal" else "inaccurate"),
              start_frame := curr_frame.frame_index,
              end_frame := next_frame.frame_index,
              start_time_s := curr_frame.time_s,
              end_time_s := next_frame.time_s,
              player_track_id := (find_nearest_player curr_frame player_tracks 80).map
                Track.track_id,
              ball_track_id := some ball_track_id,
              start_x := curr_frame.x, start_y := curr_frame.y,
              end_x := next_frame.x, end_y := next_frame.y,
              confidence := 6 / 10 } :: tail
          else tail
      | _ => []

/-- Embeds `action_recognition._detect_shots`. -/
def detect_shots (ball_track : Track) (player_tracks : List Track) (pitch_dims : ℚ × ℚ) :
    List ActionCandidate :=
  if ball_track.frames.length < 5 then []
  else shotScan player_tracks ball_track.track_id pitch_dims ball_track.frames

/-- Continuation condition of the inner `while` of `_detect_dribbles`:
the nearest player (within 40px) exists and is still the same track. -/
def sameNearest (player_tracks : List Track) (pid : String) (f : TrackFrame) : Bool :=
  match find_nearest_player f player_tracks 40 with
  | some t => t.track_id == pid
  | none => false

/-- The `while i < len(frames)` loop of `_detect_dribbles`.  The matching
run `frames[i+1 : j]` is the longest `sameNearest` prefix of the tail, so
`j - i = 1 + run.length`; Python's `i = j if j > i + 1 else i + 1` is
`rest.drop run.length` in both cases (`drop 0 = rest`).  The fuel starts
at the frame count, which bounds the number of iterations. -/
def dribbleScan (player_tracks : List Track) (ball_track_id : String) :
    Nat → List TrackFrame → List ActionCandidate
  | 0, _ => []
  | _, [] => []
  | fuel + 1, start_frame :: rest =>
      match find_nearest_player start_frame player_tracks 40 with
      | none => dribbleScan player_tracks ball_track_id fuel rest
      | some player =>
          let run := rest.takeWhile (sameNearest player_tracks player.track_id)
          let tail := dribbleScan player_tracks ball_track_id fuel (rest.drop run.length)
          if 5 ≤ 1 + run.length then
            let end_frame := run.getLastD start_frame
            if distSq end_frame.x end_frame.y start_frame.x start_frame.y > 30 * 30 then
              { action := "dribble",
                subaction := some (if dribble_kept player_tracks player then "keep"
                  else "lose"),
                start_frame := start_frame.frame_index,
                end_frame := end_frame.frame_index,
                start_time_s := start_frame.time_s,
                end_time_s := end_frame.time_s,
                player_track_id := some player.track_id,
                ball_track_id := some ball_track_id,
                start_x := start_frame.x, start_y := start_frame.y,
                end_x := end_frame.x, end_y := end_frame.y,
                confidence := 65 / 100 } :: tail
            else tail
          else tail

/-- Embeds `action_recognition._detect_dribbles`. -/
def detect_dribbles (ball_track : Track) (player_tracks : List Track) : List ActionCandidate :=
  if ball_track.frames.length < 5 then []
  else dribbleScan player_tracks ball_track.track_id ball_track.frames.length ball_track.frames

/-- Per-frame body of `_detect_challenges` (`for i in range(len(frames))`
reads only `frames[i]`, so the scan is per frame).  `teams` is the Python
set of `(team_color, jersey_number)` pairs, whose cardinality is the
number of distinct pairs; `player1` is `nearby[0]` and `player2` the first
nearby player with a different track id and a different team colour. -/
def challengeAt (player_tracks : List Track) (ball_track_id : String)
    (frame : TrackFrame) : Option ActionCandidate :=
  let nearby := find_all_nearby_players frame player_tracks 60
  if nearby.length < 2 then none
  else
    let teams := (nearby.map (fun p => (p.team_color, p.jersey_number))).dedup
    if 2 ≤ teams.length then
      match nearby with
      | player1 :: _ =>
          match nearby.find? (fun p =>
              p.track_id != player1.track_id && p.team_color != player1.team_color) with
          | some player2 =>
              some { action := "challenge",
                     subaction := some (if player1.team_color = player2.team_color then "win"
                       else "lose"),
                     start_frame := frame.frame_index,
                     end_frame := frame.frame_index,
                     start_time_s := frame.time_s,
                     end_time_s := frame.time_s,
                     player_track_id := some player1.track_id,
                     ball_track_id := some ball_track_id,
                     start_x := frame.x, start_y := frame.y,
                     end_x := frame.x, end_y := frame.y,
                     confidence := 1 / 2 }
          | none => none
      | [] => none
    else none

/-- The frame loop of `_detect_challenges`, emitting one candidate per
qualifying frame in order. -/
def challengeScan (player_tracks : List Track) (ball_track_id : String) :
    List TrackFrame → List ActionCandidate
  | [] => []
  | frame :: rest =>
      match challengeAt player_tracks ball_track_id frame with
      | some c => c :: challengeScan player_tracks ball_track_id rest
      | none => challengeScan player_tracks ball_track_id rest

/-- Embeds `action_recognition._detect_challenges`; note its length guard
admits a 2-frame ball track (`if len(frames) < 2`). -/
def detect_challenges (ball_track : Track) (player_tracks : List Track) :
    List ActionCandidate :=
  if ball_track.frames.length < 2 then []
  else challengeScan player_tracks ball_track.track_id ball_track.frames

/-- Index loop of `_detect_intercepts` (`for i in range(5, len(frames) -
5)`), with its backward window `frames[max(0, i - 10) : i]` (in `Nat`
arithmetic `i - (i - 10) = min i 10`).  The fuel starts at the frame
count, which the guard `i + 5 < len` never lets the loop outrun. -/
def interceptScan (frames : List TrackFrame) (player_tracks : List Track)
    (ball_track_id : String) : Nat → Nat → List ActionCandidate
  | 0, _ => []
  | fuel + 1, i =>
      if h : i + 5 < frames.length then
        let frame := frames.get ⟨i, by omega⟩
        let nearby := find_all_nearby_players frame player_tracks 50
        if nearby.length < 2 then interceptScan frames player_tracks ball_track_id fuel (i + 1)
        else
          match nearby with
          | attacker :: _ =>
              match nearby.find? (fun p => p.team_color != attacker.team_color) with
              | none => interceptScan frames player_tracks ball_track_id fuel (i + 1)
              | some defender =>
                  let prev_frames := (frames.drop (i - 10)).take (i - (i - 10))
                  if prev_frames.any (fun f =>
                      find_nearest_player f player_tracks 40 == some attacker) then
                    { action := "intercept",
                      subaction := some "success",
                      start_frame := frame.frame_index,
                      end_frame := frame.frame_index,
                      start_time_s := frame.time_s,
                      end_time_s := frame.time_s,
                      player_track_id := some defender.track_id,
                      ball_track_id := some ball_track_id,
                      start_x := frame.x, start_y := frame.y,
                      end_x := frame.x, end_y := frame.y,
                      confidence := 55 / 100 } ::
                        interceptScan frames player_tracks ball_track_id fuel (i + 1)
                  else interceptScan frames player_tracks ball_track_id fuel (i + 1)
          | [] => interceptScan frames player_tracks ball_track_id fuel (i + 1)
      else []

/-- Embeds `action_recognition._detect_intercepts`. -/
def detect_intercepts (ball_track : Track) (player_tracks : List Track) :
    List ActionCandidate :=
  if ball_track.frames.length < 10 then []
  else interceptScan ball_track.frames player_tracks ball_track.track_id
    ball_track.frames.length 5

/-- Embeds `action_recognition.recognize_actions`: concatenates the five
detectors in source order and stably sorts by `start_frame`. -/
def recognize_actions (tracking : TrackingResult) (pitch_dims : ℚ × ℚ) :
    List ActionCandidate :=
  if tracking.ball_tracks = [] ∨ tracking.player_tracks = [] then []
  else
    match primaryBallTrack tracking.ball_tracks with
    | none => []
    | some ball_track =>
        if ball_track.frames.length < 2 then []
        else
          pySorted (fun a => a.start_frame)
            (detect_passes ball_track tracking.player_tracks ++
             detect_shots ball_track tracking.player_tracks pitch_dims ++
             detect_dribbles ball_track tracking.player_tracks ++
             detect_challenges ball_track tracking.player_tracks ++
             detect_intercepts ball_track tracking.player_tracks)

/-! ### Pitch mapper and event builder (`components/pitch_mapper.py`,
`components/event_builder.py`, `components/types.py`) -/

/-- Instance state of `pitch_mapper.PitchMapper.__init__`; the homography
cache and the cv2-backed methods `get_homography` / `transform_track` are
external-I/O collaborators and are not modelled. -/
structure PitchMapper where
  video_path : String
  pitch_dims : ℚ × ℚ
  line_color : Option String := none
  sample_interval : Nat := 30
deriving DecidableEq

/-- The method invoked by `event_builder.build_action_events`.  The
`PitchMapper` class defines only `get_homography` and `transform_track`;
no `transform_point` attribute exists anywhere in the repository, so in
Python this attribute access raises `AttributeError`, embedded as
`Except.error`.  (Had it existed, the caller expects an optional pitch
point, hence the payload type.) -/
def PitchMapper.transform_point (pm : PitchMapper) (x y : ℚ) (frame_index : Nat) :
    Except String (Option (ℚ × ℚ)) :=
  .error "AttributeError: PitchMapper object has no attribute transform_point"

/-- Final joined output record (`types.ActionEvent`). -/
structure ActionEvent where
  game_id : String
  event_id : Option String
  period : Option Nat
  phase : Option String
  possession_id : Option String
  team_color : Option String
  team_name : Option String
  player_number : Option String
  player_track_id : Option String
  ball_owner_track_id : Option String
  action : String
  subaction : Option String
  start_frame : Option Nat
  end_frame : Option Nat
  start_time_s : ℚ
  end_time_s : ℚ
  start_x : ℚ
  start_y : ℚ
  end_x : ℚ
  end_y : ℚ
  confidence : ℚ
deriving DecidableEq

/-- One segment's contribution to `_build_possession_map`: expand the
inclusive frame range into per-frame entries overwriting `m`; segments
with an unset bound are skipped.  `range(start, end + 1)` is
`List.range' start (end + 1 - start)` (empty when `end + 1 ≤ start`, as in
Python). -/
def possMapStep (m : Nat → Option String) (segment : PossessionSegment) :
    Nat → Option String :=
  match segment.start_frame, segment.end_frame with
  | some s, some e =>
      (List.range' s (e + 1 - s)).foldl
        (fun m' fr => fun k => if k = fr then some segment.possession_id else m' k) m
  | _, _ => m

/-- Embeds `event_builder._build_possession_map`. -/
def build_possession_map (segments : List PossessionSegment) : Nat → Option String :=
  segments.foldl possMapStep (fun _ => none)

/-- One segment's contribution to `_build_phase_map` (same expansion as
`possMapStep`, storing `(period, phase)`). -/
def phaseMapStep (m : Nat → Option (Nat × String)) (segment : PhaseSegment) :
    Nat → Option (Nat × String) :=
  match segment.start_frame, segment.end_frame with
  | some s, some e =>
      (List.range' s (e + 1 - s)).foldl
        (fun m' fr => fun k => if k = fr then some (segment.period, segment.phase) else m' k) m
  | _, _ => m

/-- Embeds `event_builder._build_phase_map`. -/
def build_phase_map (segments : List PhaseSegment) : Nat → Option (Nat × String) :=
  segments.foldl phaseMapStep (fun _ => none)

/-- Per-candidate loop of `build_action_events` in an `Except` monad (a
Python exception aborts the whole call).  `n` is the deterministic stand-in
for the per-iteration `uuid.uuid4()` event id, bumped for dropped
candidates too, exactly as the source draws a uuid before the drop test. -/
def buildLoop (game_id : String) (track_map : String → Option Track) (pm : PitchMapper)
    (possession_map : Nat → Option String) (phase_map : Nat → Option (Nat × String))
    (team_names : List (String × String)) :
    List ActionCandidate → Nat → Except String (List ActionEvent)
  | [], _ => .ok []
  | candidate :: rest, n =>
      let player_track_opt :=
        match candidate.player_track_id with
        | none => none
        | some pid => track_map pid
      match player_track_opt with
      | none => buildLoop game_id track_map pm possession_map phase_map team_names rest (n + 1)
      | some player_track =>
          match pm.transform_point candidate.start_x candidate.start_y candidate.start_frame with
          | .error e => .error e
          | .ok start_pitch_opt =>
              match pm.transform_point candidate.end_x candidate.end_y candidate.end_frame with
              | .error e => .error e
              | .ok end_pitch_opt =>
                  let pitch :=
                    match start_pitch_opt, end_pitch_opt with
                    | some sp, some ep => (sp, ep)
                    | _, _ => ((candidate.start_x, candidate.start_y),
                               (candidate.end_x, candidate.end_y))
                  let pp :=
                    match phase_map candidate.start_frame with
                    | some (p, ph) => (some p, some ph)
                    | none => (none, none)
                  let event : ActionEvent :=
                    { game_id := game_id,
                      event_id := some (toString n),
                      period := pp.1,
                      phase := pp.2,
                      possession_id := possession_map candidate.start_frame,
                      team_color := player_track.team_color,
                      team_name := pyDict team_names
                        (match player_track.team_color with
                         | some c => c.toLower
                         | none => ""),
                      player_number := player_track.jersey_number,
                      player_track_id := candidate.player_track_id,
                      ball_owner_track_id := candidate.ball_track_id,
                      action := candidate.action,
                      subaction := candidate.subaction,
                      start_frame := some candidate.start_frame,
                      end_frame := some candidate.end_frame,
                      start_time_s := candidate.start_time_s,
                      end_time_s := candidate.end_time_s,
                      start_x := pitch.1.1, start_y := pitch.1.2,
                      end_x := pitch.2.1, end_y := pitch.2.2,
                      confidence := candidate.confidence }
                  match buildLoop game_id track_map pm possession_map phase_map team_names
                      rest (n + 1) with
                  | .ok events => .ok (event :: events)
                  | .error e => .error e

/-- Embeds `event_builder.build_action_events` (the `team_names` dict is
passed as an association list with Python-dict lookup semantics). -/
def build_action_events (game_id : String) (action_candidates : List ActionCandidate)
    (tracking : TrackingResult) (pitch_mapper : PitchMapper)
    (possession_segments : List PossessionSegment) (phase_segments : List PhaseSegment)
    (team_names : List (String × String)) : Except String (List ActionEvent) :=
  buildLoop game_id (pyDict (tracking.player_tracks.map fun t => (t.track_id, t)))
    pitch_mapper (build_possession_map possession_segments) (build_phase_map phase_segments)
    team_names action_candidates 0

/-! ### Concrete inputs used by counterexamples and witnesses -/

/-- Frame with only a centre position (bounding box zeroed; no modelled
function reads the box fields). -/
def mkFrame (idx : Nat) (t x y : ℚ) : TrackFrame :=
  ⟨idx, t, x, y, 0, 0, 0, 0⟩

/-- A one-frame player track for simple witnesses. -/
def trackW : Track :=
  { track_id := "w", label := "player", frames := [mkFrame 0 0 0 0] }

/-- Scenario B, track A: jersey "10", ending at `t = 100` at `(50, 50)`. -/
def trackA : Track :=
  { track_id := "A", label := "player",
    frames := [mkFrame 990 99 48 48, mkFrame 1000 100 50 50],
    jersey_number := some "10" }

/-- Scenario B, track B: jersey "10", starting at `t = 102` at `(55, 52)`. -/
def trackB : Track :=
  { track_id := "B", label := "player", frames := [mkFrame 1020 102 55 52],
    jersey_number := some "10" }

/-- Scenario B input: two linkable tracks with jersey "10". -/
def trScenarioB : TrackingResult := ⟨[trackA, trackB], []⟩

/-- Idempotence input, track a: jersey "10", frames at `t = 0, 1` at the
origin. -/
def trackIdemA : Track :=
  { track_id := "a", label := "player",
    frames := [mkFrame 0 0 0 0, mkFrame 10 1 0 0], jersey_number := some "10" }

/-- Idempotence input, track b: linkable to a (starts at `t = 2` at the
origin) but ending far away at `(1000, 0)`. -/
def trackIdemB : Track :=
  { track_id := "b", label := "player",
    frames := [mkFrame 20 2 0 0, mkFrame 25 (5 / 2) 1000 0], jersey_number := some "10" }

/-- Idempotence input, track c: starts at `t = 3` at the origin — too far
from b's end to link to b, but linkable to a once b is gone. -/
def trackIdemC : Track :=
  { track_id := "c", label := "player", frames := [mkFrame 30 3 0 0],
    jersey_number := some "10" }

/-- Input on which one linker pass leaves two still-linkable tracks. -/
def trIdem : TrackingResult := ⟨[trackIdemA, trackIdemB, trackIdemC], []⟩

/-- Ball track for the possession example: frames 0..4 at one frame per
second, stationary at the origin. -/
def ballTrack3 : Track :=
  { track_id := "ball3", label := "ball",
    frames := [mkFrame 0 0 0 0, mkFrame 1 1 0 0, mkFrame 2 2 0 0,
               mkFrame 3 3 0 0, mkFrame 4 4 0 0] }

/-- Player owning the ball at frames 0 and 1. -/
def playerPoss1 : Track :=
  { track_id := "q1", label := "player", frames := [mkFrame 0 0 0 0, mkFrame 1 1 0 0] }

/-- Player owning the ball at frames 2, 3 and 4. -/
def playerPoss2 : Track :=
  { track_id := "q2", label := "player",
    frames := [mkFrame 2 2 0 0, mkFrame 3 3 0 0, mkFrame 4 4 0 0] }

/-- Possession input whose two segments meet at ball frame 2. -/
def trPoss : TrackingResult := ⟨[playerPoss1, playerPoss2], [ballTrack3]⟩

/-- `n` consecutive ball frames, one per second, stationary at the
origin. -/
def stillFrames (n : Nat) : List TrackFrame :=
  (List.range n).map (fun i => mkFrame i (i : ℚ) 0 0)

/-- Ball track whose halftime interval starts at `t = 0`, before the
kickoff spike at `t = 330`: thirty quiet frames, then a jump to
`(100, 0)`. -/
def ballPhase : Track :=
  { track_id := "bp", label := "ball",
    frames := stillFrames 30 ++ [mkFrame 30 330 0 0, mkFrame 31 331 100 0] }

/-- Phase counterexample input (ball-only). -/
def trPhase : TrackingResult := ⟨[], [ballPhase]⟩

/-- Ball track on which both halftime `(0, 330)` and a second-half kickoff
at `t = 340` are detected: thirty quiet frames, activity at `t = 330`, a
fresh dwell, then a spike at `t = 341`. -/
def ballPhaseW : Track :=
  { track_id := "bw", label := "ball",
    frames := stillFrames 30 ++ [mkFrame 30 330 100 0] ++
      ((List.range 10).map (fun i => mkFrame (31 + i) ((331 + i : Nat) : ℚ) 0 0)) ++
      [mkFrame 41 341 200 0] }

/-- Phase witness input (ball-only). -/
def trPhaseW : TrackingResult := ⟨[], [ballPhaseW]⟩

/-- The first phase segment emitted on `trPhase` (note its start time 330
is the kickoff, later than its end time 0, the halftime start). -/
def segPhaseW : PhaseSegment :=
  { period := 1, phase := "first_half", start_time_s := 330, end_time_s := 0 }

/-- Two-frame ball track for Scenario A. -/
def ballTwo : Track :=
  { track_id := "b", label := "ball", frames := [mkFrame 0 0 0 0, mkFrame 1 (1 / 5) 0 0] }

/-- Red player at the ball at frame 0. -/
def playerRed : Track :=
  { track_id := "p1", label := "player", frames := [mkFrame 0 0 0 0],
    team_color := some "red" }

/-- Blue player 10px from the ball at frame 0. -/
def playerBlue : Track :=
  { track_id := "p2", label := "player", frames := [mkFrame 0 0 10 0],
    team_color := some "blue" }

/-- Scenario A input whose 2-frame ball track still yields a challenge. -/
def trTwo : TrackingResult := ⟨[playerRed, playerBlue], [ballTwo]⟩

/-- The challenge candidate emitted on `trTwo` at ball frame 0. -/
def chalCand : ActionCandidate :=
  { action := "challenge", subaction := some "lose", start_frame := 0, end_frame := 0,
    start_time_s := 0, end_time_s := 0, player_track_id := some "p1",
    ball_track_id := some "b", start_x := 0, start_y := 0, end_x := 0, end_y := 0,
    confidence := 1 / 2 }

/-- Ball frame and two exactly equidistant players for the tie-break
witness. -/
def ballFrame9 : TrackFrame := mkFrame 0 0 0 0

/-- First-seen player, 10px right of the ball. -/
def player9a : Track :=
  { track_id := "t1", label := "player", frames := [mkFrame 0 0 10 0] }

/-- Later player, 10px below the ball — the same distance. -/
def player9b : Track :=
  { track_id := "t2", label := "player", frames := [mkFrame 0 0 0 10] }

/-- A pass candidate whose player track resolves in `trEvent`. -/
def candEvent : ActionCandidate :=
  { action := "pass", subaction := none, start_frame := 0, end_frame := 1,
    start_time_s := 0, end_time_s := 1, player_track_id := some "p1",
    ball_track_id := some "b", start_x := 5, start_y := 6, end_x := 7, end_y := 8,
    confidence := 7 / 10 }

/-- Tracking that resolves `candEvent`'s player track id. -/
def trEvent : TrackingResult :=
  ⟨[{ track_id := "p1", label := "player", frames := [] }], []⟩

/-- Any pitch mapper instance (its fields are irrelevant to the missing
method). -/
def pmEvent : PitchMapper := { video_path := "v", pitch_dims := (100, 64) }

/-! ### Helper lemmas -/

/-- Membership is preserved by a stable insertion. -/
theorem mem_insertBy {α β : Type} [LinearOrder β] (key : α → β) (x a : α) :
    ∀ l : List α, a ∈ insertBy key x l ↔ a = x ∨ a ∈ l := by
  intro l
  induction l with
  | nil => simp [insertBy]
  | cons y ys ih =>
      simp only [insertBy]
      split
      · simp [List.mem_cons]
      · simp only [List.mem_cons, ih]
        tauto

/-- Membership through the fold underlying `pySorted`. -/
theorem mem_pySorted_aux {α β : Type} [LinearOrder β] (key : α → β) :
    ∀ (xs acc : List α) (a : α),
      (a ∈ xs.foldl (fun acc x => insertBy key x acc) acc) ↔ a ∈ acc ∨ a ∈ xs := by
  intro xs
  induction xs with
  | nil => simp
  | cons x xs ih =>
      intro acc a
      rw [List.foldl_cons, ih, mem_insertBy]
      simp only [List.mem_cons]
      tauto

/-- Python's stable sort neither adds nor removes elements. -/
theorem mem_pySorted {α β : Type} [LinearOrder β] (key : α → β) (xs : List α) (a : α) :
    a ∈ pySorted key xs ↔ a ∈ xs := by
  unfold pySorted
  rw [mem_pySorted_aux]
  simp

/-- Any candidate emitted at one frame by the challenge detector is a
challenge with subaction "lose": `player2` is selected for having a team
colour different from `player1`'s, so the equality that would yield "win"
is false. -/
theorem challengeAt_lose (player_tracks : List Track) (bid : String) (frame : TrackFrame)
    (c : ActionCandidate) (hc : challengeAt player_tracks bid frame = some c) :
    c.action = "challenge" ∧ c.subaction = some "lose" := by
  simp only [challengeAt] at hc
  split at hc
  · exact absurd hc (by simp)
  · split at hc
    · split at hc
      · split at hc
        · rename_i nearby1 player1 tl1 heqnearby res1 player2 hfind
          have hp := List.find?_some hfind
          rw [Bool.and_eq_true] at hp
          have hne : player2.team_color ≠ player1.team_color := by
            simpa [bne_iff_ne] using hp.2
          rw [Option.some_inj] at hc
          subst hc
          refine ⟨rfl, ?_⟩
          show some (if player1.team_color = player2.team_color then "win" else "lose") =
            some "lose"
          rw [if_neg (fun h => hne h.symm)]
        · exact absurd hc (by simp)
      · exact absurd hc (by simp)
    · exact absurd hc (by simp)

/-- Every candidate produced by the challenge frame loop is a "lose"
challenge. -/
theorem challengeScan_lose (player_tracks : List Track) (bid : String) :
    ∀ (frames : List TrackFrame), ∀ c ∈ challengeScan player_tracks bid frames,
      c.action = "challenge" ∧ c.subaction = some "lose" := by
  intro frames
  induction frames with
  | nil => intro c hc; simp [challengeScan] at hc
  | cons frame rest ih =>
      intro c hc
      rw [challengeScan] at hc
      split at hc
      · rename_i c0 hc0
        rcases List.mem_cons.mp hc with h | h
        · subst h
          exact challengeAt_lose player_tracks bid frame c hc0
        · exact ih c h
      · exact ih c hc

/-- Every candidate of `_detect_challenges` is a "lose" challenge. -/
theorem detect_challenges_lose (ball_track : Track) (player_tracks : List Track) :
    ∀ c ∈ detect_challenges ball_track player_tracks,
      c.action = "challenge" ∧ c.subaction = some "lose" := by
  intro c hc
  unfold detect_challenges at hc
  split at hc
  · simp at hc
  · exact challengeScan_lose player_tracks ball_track.track_id ball_track.frames c hc

/-! ### Claim theorems -/

/-- C10: for every `TrackingResult` (with the non-degenerate tracks on
which Python does not raise), `link_substitutions` returns `ball_tracks`
identical to the input's: the linker touches only `player_tracks`. -/
theorem link_substitutions_preserves_ball_tracks (tracking : TrackingResult)
    (gap dist : ℚ) (h : ∀ t ∈ tracking.player_tracks, t.frames ≠ []) :
    (link_substitutions tracking gap dist).ball_tracks = tracking.ball_tracks := by
  unfold link_substitutions
  split <;> rfl

/-- Witness for C10 at a concrete one-track input. -/
theorem link_substitutions_preserves_ball_tracks_witness :
    (∀ t ∈ ([trackW] : List Track), t.frames ≠ []) ∧
      (link_substitutions ⟨[trackW], []⟩ 5 100).ball_tracks = ([] : List Track) :=
  ⟨by decide, link_substitutions_preserves_ball_tracks ⟨[trackW], []⟩ 5 100 (by decide)⟩

/-- C2 (code bug): at the spec's Scenario B input the linker marks track B
as merged but `_merge_tracks` is never reached (the merge loop scans
`updated_tracks`, from which every `replacements` key was already
filtered), so the output is track A unchanged and track B's frames are
discarded instead of concatenated. -/
theorem link_substitutions_scenario_b :
    (link_substitutions trScenarioB 5 100).player_tracks = [trackA] ∧
    trackA.frames.length = 2 ∧ trackB.frames ≠ [] ∧
    ∀ f ∈ trackB.frames, f ∉ trackA.frames := by decide

/-- C7 (code bug): `link_substitutions` is not idempotent.  On `trIdem`
the first pass links b to a and discards b, leaving `[a, c]`; because a
keeps its original end point, the second pass links c to a as well,
returning `[a]`. -/
theorem link_substitutions_not_idempotent :
    link_substitutions (link_substitutions trIdem 5 100) 5 100 ≠
      link_substitutions trIdem 5 100 ∧
    (link_substitutions trIdem 5 100).player_tracks.map Track.track_id = ["a", "c"] ∧
    (link_substitutions (link_substitutions trIdem 5 100) 5 100).player_tracks.map
      Track.track_id = ["a"] := by decide

/-- C1 (code bug): `build_action_events` aborts with `AttributeError` on
the first candidate whose player track resolves, because `PitchMapper`
defines no `transform_point`; the pixel-coordinate fallback below the call
is dead code. -/
theorem build_action_events_attribute_error :
    build_action_events "g" [candEvent] trEvent pmEvent [] [] [] =
      Except.error "AttributeError: PitchMapper object has no attribute transform_point" :=
  rfl

/-- C6: every `ActionCandidate` emitted by the challenge detector has
subaction "lose"; the "win" branch compares the team colours of two
players already established to differ, so it is unreachable. -/
theorem detect_challenges_always_lose (ball_track : Track) (player_tracks : List Track) :
    ∀ c ∈ detect_challenges ball_track player_tracks, c.subaction = some "lose" := by
  intro c hc
  exact (detect_challenges_lose ball_track player_tracks c hc).2

/-- Witness for C6: a concrete emitted challenge, with subaction "lose". -/
theorem detect_challenges_always_lose_witness :
    chalCand ∈ detect_challenges ballTwo [playerRed, playerBlue] ∧
      chalCand.subaction = some "lose" :=
  ⟨by decide, detect_challenges_always_lose ballTwo [playerRed, playerBlue] chalCand
    (by decide)⟩

/-- C3 counterexample: on `trPoss` the two inferred segments are
`(0, 2)` and `(2, 4)`; the later segment's start frame equals — is not
strictly greater than — the earlier segment's end frame. -/
theorem infer_possessions_boundary_shared :
    ((infer_possessions "v" trPoss 60 (1 / 10)).map
      (fun s => (s.start_frame, s.end_frame))) = [(some 0, some 2), (some 2, some 4)] ∧
    ¬ (2 : Nat) > 2 := by decide

/-- C4 counterexample: on `trPhase` both kickoff (`t = 330`) and halftime
(`(0, 330)`) are detected, yet the kickoff time is not smaller than the
halftime start — `_detect_halftime` ignores its `kickoff_time_s` argument
and scans from frame 0. -/
theorem phase_monotonicity_counterexample :
    detect_kickoff_time trPhase = some 330 ∧
    detect_halftime trPhase 330 = some (0, 330) ∧
    ¬ ((330 : ℚ) < 0) := by decide

/-- C5 counterexample: a 2-frame primary ball track does not make
`recognize_actions` empty — the challenge detector's guard admits it and
emits a candidate. -/
theorem recognize_actions_two_frame_counterexample :
    (primaryBallTrack trTwo.ball_tracks).map (fun t => t.frames.length) = some 2 ∧
    recognize_actions trTwo (100, 64) = [chalCand] ∧
    recognize_actions trTwo (100, 64) ≠ [] := by decide

/-- A track whose frame at the ball's index is not strictly nearer than
the current minimum leaves the scan state unchanged. -/
theorem nearestStep_skip (bf : TrackFrame) (st : ℚ × Option Track) (t : Track)
    (f : TrackFrame) (hf : trackFrameAt t bf.frame_index = some f)
    (hge : ¬ distSq f.x f.y bf.x bf.y < st.1) :
    nearestStep bf st t = st := by
  unfold nearestStep
  split
  · rfl
  · rename_i f2 hf2
    rw [hf2, Option.some_inj] at hf
    subst hf
    rw [if_neg hge]

/-- C9: a later track whose distance to the ball equals the current
minimum never replaces the current nearest candidate — removing such a
track `t` from anywhere behind the prefix that established the minimum
leaves the nearest-player result unchanged, so ties go to the first-seen
track in input order. -/
theorem nearest_player_tie_break (ball_frame : TrackFrame) (max_dist : ℚ)
    (ts ts' : List Track) (t : Track) (f : TrackFrame)
    (hf : trackFrameAt t ball_frame.frame_index = some f)
    (heq : distSq f.x f.y ball_frame.x ball_frame.y =
      (ts.foldl (nearestStep ball_frame) (max_dist * max_dist, none)).1) :
    find_nearest_player_at_frame ball_frame (ts ++ t :: ts') max_dist =
      find_nearest_player_at_frame ball_frame (ts ++ ts') max_dist := by
  unfold find_nearest_player_at_frame
  rw [List.foldl_append, List.foldl_append, List.foldl_cons]
  rw [nearestStep_skip ball_frame _ t f hf (by rw [heq]; exact lt_irrefl _)]

/-- Witness for C9: two players exactly 10px from the ball; the result
with and without the later tied player is the same (the first player). -/
theorem nearest_player_tie_break_witness :
    (trackFrameAt player9b 0 = some (mkFrame 0 0 0 10) ∧
      distSq 0 10 0 0 =
        (([player9a] : List Track).foldl (nearestStep ballFrame9) (60 * 60, none)).1) ∧
    find_nearest_player_at_frame ballFrame9 [player9a, player9b] 60 =
      find_nearest_player_at_frame ballFrame9 [player9a] 60 :=
  ⟨⟨by decide, by decide⟩,
   nearest_player_tie_break ballFrame9 60 [player9a] [] player9b (mkFrame 0 0 0 10)
     (by decide) (by decide)⟩

/-- C5 (amended): when the primary ball track has exactly 2 frames the
pass, shoot, dribble and intercept detectors all return empty via their
length guards, so every candidate `recognize_actions` returns is a
challenge (the challenge guard `len < 2` admits 2-frame tracks). -/
theorem recognize_actions_two_frame_only_challenges (tracking : TrackingResult)
    (pitch_dims : ℚ × ℚ) (bt : Track)
    (hbt : primaryBallTrack tracking.ball_tracks = some bt)
    (hlen : bt.frames.length = 2) :
    ∀ c ∈ recognize_actions tracking pitch_dims, c.action = "challenge" := by
  intro c hc
  unfold recognize_actions at hc
  split at hc
  · simp at hc
  · rw [hbt] at hc
    simp only [hlen] at hc
    rw [if_neg (by omega)] at hc
    have hp : detect_passes bt tracking.player_tracks = [] := by
      unfold detect_passes
      rw [hlen, if_pos (by omega)]
    have hs : detect_shots bt tracking.player_tracks pitch_dims = [] := by
      unfold detect_shots
      rw [hlen, if_pos (by omega)]
    have hd : detect_dribbles bt tracking.player_tracks = [] := by
      unfold detect_dribbles
      rw [hlen, if_pos (by omega)]
    have hi : detect_intercepts bt tracking.player_tracks = [] := by
      unfold detect_intercepts
      rw [hlen, if_pos (by omega)]
    rw [hp, hs, hd, hi] at hc
    simp only [List.nil_append, List.append_nil] at hc
    rw [mem_pySorted] at hc
    exact (detect_challenges_lose bt tracking.player_tracks c hc).1

/-- Witness for C5's amended theorem on the concrete `trTwo`. -/
theorem recognize_actions_two_frame_only_challenges_witness :
    (primaryBallTrack trTwo.ball_tracks = some ballTwo ∧ ballTwo.frames.length = 2) ∧
    chalCand.action = "challenge" :=
  ⟨⟨by decide, by decide⟩,
   recognize_actions_two_frame_only_challenges trTwo (100, 64) ballTwo (by decide)
     (by decide) chalCand (by decide)⟩

/-- A segment with no start frame contributes nothing to the phase map. -/
theorem phaseMapStep_skip (m : Nat → Option (Nat × String)) (segment : PhaseSegment)
    (h : segment.start_frame = none) : phaseMapStep m segment = m := by
  unfold phaseMapStep
  split
  · rename_i s e hs he
    rw [h] at hs
    exact absurd hs (by simp)
  · rfl

/-- Folding the phase map over frameless segments keeps the map. -/
theorem build_phase_map_fold_skip :
    ∀ (segments : List PhaseSegment) (m : Nat → Option (Nat × String)),
      (∀ seg ∈ segments, seg.start_frame = none) →
      segments.foldl phaseMapStep m = m := by
  intro segments
  induction segments with
  | nil => intro m _; rfl
  | cons seg rest ih =>
      intro m h
      rw [List.foldl_cons, phaseMapStep_skip m seg (h seg (List.mem_cons_self seg rest))]
      exact ih m (fun s hs => h s (List.mem_cons_of_mem _ hs))

/-- The event-builder loop can only succeed with an empty event list:
producing an event requires a resolved player track, and the very next
step calls the missing `transform_point`, which errors. -/
theorem buildLoop_ok_empty (gi : String) (tm : String → Option Track) (pm : PitchMapper)
    (poss : Nat → Option String) (ph : Nat → Option (Nat × String))
    (tn : List (String × String)) :
    ∀ (cands : List ActionCandidate) (n : Nat) (evs : List ActionEvent),
      buildLoop gi tm pm poss ph tn cands n = .ok evs → evs = [] := by
  intro cands
  induction cands with
  | nil =>
      intro n evs h
      rw [buildLoop] at h
      cases h
      rfl
  | cons c rest ih =>
      intro n evs h
      rw [buildLoop] at h
      split at h
      · exact ih _ _ h
      · split at h
        · exact absurd h (by simp)
        · rename_i heq
          exact absurd heq (by simp [PitchMapper.transform_point])

/-- C8: `segment_game_phases` never sets `start_frame`/`end_frame`, the
phase map built from its output is therefore empty, and every
`ActionEvent` that `build_action_events` ever returns has `period = none`
and `phase = none` (indeed it can only return an empty event list, since
reaching the phase lookup requires surviving the `transform_point` call,
which raises). -/
theorem phase_segments_without_frames :
    (∀ (vp : String) (tracking : TrackingResult) (lc : Option String),
      ∀ seg ∈ segment_game_phases vp tracking lc,
        seg.start_frame = none ∧ seg.end_frame = none) ∧
    (∀ segments : List PhaseSegment, (∀ seg ∈ segments, seg.start_frame = none) →
      ∀ fr, build_phase_map segments fr = none) ∧
    (∀ (gi : String) (cands : List ActionCandidate) (tracking : TrackingResult)
      (pm : PitchMapper) (poss : List PossessionSegment) (phs : List PhaseSegment)
      (tn : List (String × String)) (evs : List ActionEvent),
      build_action_events gi cands tracking pm poss phs tn = .ok evs →
      ∀ e ∈ evs, e.period = none ∧ e.phase = none) := by
  refine ⟨?_, ?_, ?_⟩
  · intro vp tracking lc seg hseg
    simp only [segment_game_phases] at hseg
    split at hseg
    · simp at hseg
    · split at hseg
      · rw [List.mem_singleton] at hseg
        subst hseg
        exact ⟨rfl, rfl⟩
      · split at hseg
        · simp only [List.mem_append, List.mem_cons, List.not_mem_nil, or_false] at hseg
          rcases hseg with (h | h) | h <;> (subst h; exact ⟨rfl, rfl⟩)
        · split at hseg
          · simp only [List.mem_append, List.mem_cons, List.not_mem_nil, or_false] at hseg
            rcases hseg with (h | h) | h <;> (subst h; exact ⟨rfl, rfl⟩)
          · simp only [List.mem_cons, List.not_mem_nil, or_false] at hseg
            rcases hseg with h | h <;> (subst h; exact ⟨rfl, rfl⟩)
  · intro segments hnone fr
    unfold build_phase_map
    rw [build_phase_map_fold_skip segments _ hnone]
  · intro gi cands tracking pm poss phs tn evs h e he
    have hempty : evs = [] := by
      unfold build_action_events at h
      exact buildLoop_ok_empty gi _ pm _ _ tn cands 0 evs h
    subst hempty
    simp at he

/-- Witness for C8: a concrete phase segment of `trPhase`'s segmentation
with unset frame bounds, the empty map over that segmentation, and the
vacuous event clause applied to a run that drops its only candidate. -/
theorem phase_segments_without_frames_witness :
    (segPhaseW ∈ segment_game_phases "v" trPhase none ∧
      segPhaseW.start_frame = none ∧ segPhaseW.end_frame = none) ∧
    build_phase_map (segment_game_phases "v" trPhase none) 0 = none ∧
    (∀ e ∈ ([] : List ActionEvent), e.period = none ∧ e.phase = none) :=
  ⟨⟨by decide, phase_segments_without_frames.1 "v" trPhase none segPhaseW (by decide)⟩,
   phase_segments_without_frames.2.1 (segment_game_phases "v" trPhase none)
     (fun seg h => (phase_segments_without_frames.1 "v" trPhase none seg h).1) 0,
   phase_segments_without_frames.2.2 "g" [candEvent] ⟨[], []⟩ pmEvent [] [] [] []
     (by rfl)⟩

/-- Anything the halftime inner loop accepts keeps the given start time,
spans at least 300 seconds, and ends at the time of one of the frames. -/
theorem halftimeInner_spec (frames : List TrackFrame) (s : ℚ) :
    ∀ (fuel j : Nat) (a b : ℚ), halftimeInner frames s fuel j = some (a, b) →
      a = s ∧ 300 ≤ b - s ∧ ∃ f ∈ frames, f.time_s = b := by
  intro fuel
  induction fuel with
  | zero =>
      intro j a b h
      exact absurd h (by simp [halftimeInner])
  | succ fuel ih =>
      intro j a b h
      rw [halftimeInner] at h
      split at h
      · rename_i hlen
        simp only [] at h
        split at h
        · split at h
          · rename_i hdur
            rw [Option.some_inj, Prod.mk.injEq] at h
            obtain ⟨h1, h2⟩ := h
            subst h1
            subst h2
            exact ⟨rfl, hdur, frames.get ⟨j, hlen⟩, List.get_mem frames _ _, rfl⟩
          · exact absurd h (by simp)
        · exact ih _ _ _ h
      · exact absurd h (by simp)

/-- Anything the halftime outer loop returns spans at least 300 seconds
and ends at the time of one of the frames. -/
theorem halftimeOuter_spec (frames : List TrackFrame) :
    ∀ (fuel idx : Nat) (a b : ℚ), halftimeOuter frames fuel idx = some (a, b) →
      300 ≤ b - a ∧ ∃ f ∈ frames, f.time_s = b := by
  intro fuel
  induction fuel with
  | zero =>
      intro idx a b h
      exact absurd h (by simp [halftimeOuter])
  | succ fuel ih =>
      intro idx a b h
      rw [halftimeOuter] at h
      split at h
      · rename_i hlen
        simp only [] at h
        split at h
        · split at h
          · rename_i res hres
            rw [Option.some_inj] at h
            subst h
            obtain ⟨h1, h2, h3⟩ := halftimeInner_spec frames _ _ _ a b hres
            rw [h1]
            exact ⟨h2, h3⟩
          · exact ih _ _ _ h
        · exact ih _ _ _ h
      · exact absurd h (by simp)

/-- Any time the dwell/spike scan returns is the time of a frame whose
index is at least the scan's start index. -/
theorem kickoffScan_spec (frames : List TrackFrame) :
    ∀ (fuel j : Nat) (t : ℚ), kickoffScan frames fuel j = some t →
      ∃ i, j ≤ i ∧ ∃ h : i < frames.length, t = (frames.get ⟨i, h⟩).time_s := by
  intro fuel
  induction fuel with
  | zero =>
      intro j t h
      exact absurd h (by simp [kickoffScan])
  | succ fuel ih =>
      intro j t h
      rw [kickoffScan] at h
      split at h
      · rename_i hlen
        simp only [] at h
        split at h
        · obtain ⟨i, hji, hi, ht⟩ := ih _ _ h
          exact ⟨i, by omega, hi, ht⟩
        · split at h
          · rw [Option.some_inj] at h
            exact ⟨j, le_refl j, by omega, h.symm⟩
          · obtain ⟨i, hji, hi, ht⟩ := ih _ _ h
            exact ⟨i, by omega, hi, ht⟩
      · exact absurd h (by simp)

/-- When `pyNextIdx` (started at counter `c`) finds an index, that index
is `c` plus an in-range list position whose frame satisfies the
predicate. -/
theorem pyNextIdx_spec (t : ℚ) :
    ∀ (l : List TrackFrame) (c i : Nat), pyNextIdx t l c = some i →
      ∃ k, i = c + k ∧ ∃ h : k < l.length, t ≤ (l.get ⟨k, h⟩).time_s := by
  intro l
  induction l with
  | nil =>
      intro c i h
      exact absurd h (by simp [pyNextIdx])
  | cons f fs ih =>
      intro c i h
      rw [pyNextIdx] at h
      split at h
      · rename_i hge
        rw [Option.some_inj] at h
        subst h
        exact ⟨0, by omega, by simp, hge⟩
      · obtain ⟨k, hik, hk, hkt⟩ := ih (c + 1) i h
        refine ⟨k + 1, by omega, by simpa using hk, ?_⟩
        simpa using hkt

/-- `pyNextIdx` finds an index whenever some frame satisfies the
predicate. -/
theorem pyNextIdx_ne_none (t : ℚ) :
    ∀ (l : List TrackFrame) (c : Nat), (∃ f ∈ l, t ≤ f.time_s) →
      pyNextIdx t l c ≠ none := by
  intro l
  induction l with
  | nil =>
      intro c h
      obtain ⟨f, hf, _⟩ := h
      exact absurd hf (by simp)
  | cons f fs ih =>
      intro c h
      rw [pyNextIdx]
      split
      · simp
      · rename_i hlt
        obtain ⟨f0, hf0, ht0⟩ := h
        rcases List.mem_cons.mp hf0 with rfl | hmem
        · exact absurd ht0 hlt
        · exact ih (c + 1) ⟨f0, hmem, ht0⟩

/-- C4 (amended): whenever `_detect_halftime` reports an interval on a
time-sorted primary ball track, `halftime_start < halftime_end`, and any
second-half kickoff then detected satisfies `halftime_end ≤
second_kickoff_time`.  (The claim's remaining inequality `kickoff_time <
halftime_start` does not hold: `_detect_halftime` ignores its
`kickoff_time_s` argument — see the counterexample.) -/
theorem detect_halftime_second_kickoff_monotone (tracking : TrackingResult)
    (kickoff_time_s halftime_start_s halftime_end_s : ℚ) (bt : Track)
    (hbt : primaryBallTrack tracking.ball_tracks = some bt)
    (hsort : bt.frames.Pairwise (fun a b => a.time_s ≤ b.time_s))
    (hht : detect_halftime tracking kickoff_time_s =
      some (halftime_start_s, halftime_end_s)) :
    halftime_start_s < halftime_end_s ∧
      ∀ k2, detect_second_half_kickoff tracking halftime_end_s = some k2 →
        halftime_end_s ≤ k2 := by
  unfold detect_halftime at hht
  rw [hbt] at hht
  simp only [] at hht
  split at hht
  · exact absurd hht (by simp)
  · obtain ⟨hdur, f0, hf0mem, hf0time⟩ :=
      halftimeOuter_spec bt.frames _ _ _ _ hht
    refine ⟨by linarith, ?_⟩
    intro k2 h2
    unfold detect_second_half_kickoff at h2
    rw [hbt] at h2
    simp only [] at h2
    split at h2
    · exact absurd h2 (by simp)
    · cases hpn : pyNextIdx halftime_end_s bt.frames 0 with
      | none =>
          exact absurd hpn
            (pyNextIdx_ne_none halftime_end_s bt.frames 0
              ⟨f0, hf0mem, le_of_eq hf0time.symm⟩)
      | some si =>
          rw [hpn] at h2
          simp only [Option.getD_some] at h2
          split at h2
          · exact absurd h2 (by simp)
          · obtain ⟨i, hji, hi, ht⟩ := kickoffScan_spec bt.frames _ _ _ h2
            obtain ⟨k, hik, hk, hkt⟩ := pyNextIdx_spec halftime_end_s bt.frames 0 si hpn
            have hsik : si = k := by omega
            subst hsik
            have hmono : (bt.frames.get ⟨si, hk⟩).time_s ≤
                (bt.frames.get ⟨i, hi⟩).time_s := by
              have hlt : si < i := by omega
              exact List.pairwise_iff_get.mp hsort ⟨si, hk⟩ ⟨i, hi⟩ hlt
            rw [ht]
            exact le_trans hkt hmono

/-- Witness for C4's amended theorem: on `trPhaseW` the halftime interval
is `(0, 330)` and the second-half kickoff is detected at `t = 340 ≥
330`. -/
theorem detect_halftime_second_kickoff_monotone_witness :
    (primaryBallTrack trPhaseW.ball_tracks = some ballPhaseW ∧
      ballPhaseW.frames.Pairwise (fun a b => a.time_s ≤ b.time_s) ∧
      detect_halftime trPhaseW 999 = some (0, 330)) ∧
    ((0 : ℚ) < 330 ∧
      ∀ k2, detect_second_half_kickoff trPhaseW 330 = some k2 → (330 : ℚ) ≤ k2) :=
  ⟨⟨by decide, by decide, by decide⟩,
   detect_halftime_second_kickoff_monotone trPhaseW 999 0 330 ballPhaseW (by decide)
     (by decide) (by decide)⟩

/-- `pyLastFrame` is `some` on any non-empty list. -/
theorem pyLastFrame_ex : ∀ (l : List TrackFrame), l ≠ [] → ∃ lf, pyLastFrame l = some lf
  | [], h => absurd rfl h
  | [f], _ => ⟨f, rfl⟩
  | _ :: f :: rest, _ => pyLastFrame_ex (f :: rest) (by simp)

/-- The last frame is a member of the list. -/
theorem pyLastFrame_mem : ∀ (l : List TrackFrame) (lf : TrackFrame),
    pyLastFrame l = some lf → lf ∈ l := by
  intro l
  induction l with
  | nil =>
      intro lf h
      exact absurd h (by simp [pyLastFrame])
  | cons a rest ih =>
      intro lf h
      cases rest with
      | nil =>
          rw [pyLastFrame, Option.some_inj] at h
          subst h
          exact List.mem_cons_self a []
      | cons b rest2 =>
          rw [pyLastFrame] at h
          exact List.mem_cons_of_mem a (ih lf h)

/-- In a list sorted by frame index, every member's index is bounded by
the last frame's index. -/
theorem pyLastFrame_bound : ∀ (l : List TrackFrame),
    l.Pairwise (fun a b => a.frame_index ≤ b.frame_index) →
    ∀ lf, pyLastFrame l = some lf → ∀ a ∈ l, a.frame_index ≤ lf.frame_index := by
  intro l
  induction l with
  | nil =>
      intro _ lf h
      exact absurd h (by simp [pyLastFrame])
  | cons x rest ih =>
      intro hp lf h a ha
      rcases List.pairwise_cons.mp hp with ⟨hx, hrest⟩
      cases rest with
      | nil =>
          rw [pyLastFrame, Option.some_inj] at h
          subst h
          rcases List.mem_cons.mp ha with rfl | h2
          · exact le_refl _
          · exact absurd h2 (by simp)
      | cons b rest2 =>
          rw [pyLastFrame] at h
          have hlfmem := pyLastFrame_mem (b :: rest2) lf h
          rcases List.mem_cons.mp ha with rfl | h2
          · exact hx lf hlfmem
          · exact ih hrest lf h a h2

/-- `closePending` either keeps the emitted segments or appends exactly
one segment starting at the pending start frame and ending at the given
end frame. -/
theorem closePending_spec (tm : String → Option Track) (mind : ℚ) (st : PossState)
    (et : ℚ) (ef : Nat) :
    (closePending tm mind st et ef).1 = st.possessions ∨
    ∃ p seg, st.segment_start_frame = some p ∧
      (closePending tm mind st et ef).1 = st.possessions ++ [seg] ∧
      seg.start_frame = some p ∧ seg.end_frame = some ef := by
  unfold closePending
  rcases ho : st.current_owner_id with _ | owner
  · left
    rfl
  · rcases hs : st.segment_start_frame with _ | sf
    · left
      rfl
    · rcases ht : st.segment_start_time with _ | stime
      · left
        rfl
      · simp only []
        split
        · right
          exact ⟨sf, _, rfl, rfl, rfl, rfl⟩
        · left
          rfl

/-- One step of the possession scan preserves the loop invariant. -/
theorem possessionStep_inv (pts : List Track) (tm : String → Option Track)
    (maxd mind : ℚ) (F : List TrackFrame) (st : PossState) (bf : TrackFrame)
    (rest : List TrackFrame) (hmem : bf ∈ F)
    (hbound : ∀ f ∈ rest, bf.frame_index ≤ f.frame_index)
    (hinv : PossInv F (bf :: rest) st) :
    PossInv F rest (possessionStep pts tm maxd mind st bf) := by
  obtain ⟨hA, hB, hC1, hC2⟩ := hinv
  unfold possessionStep PossInv
  simp only []
  split
  · -- same owner: the state is unchanged
    refine ⟨hA, hB, ?_, hC2⟩
    intro p hp
    obtain ⟨hq, hb, he⟩ := hC1 p hp
    exact ⟨hq, fun f hf => hb f (List.mem_cons_of_mem _ hf), he⟩
  · -- owner change: possibly emit, reopen the pending segment at `bf`
    rcases closePending_spec tm mind st bf.time_s bf.frame_index with hsame |
      ⟨p, seg0, hsf, happ, hs0, he0⟩
    · refine ⟨?_, ?_, ?_, ?_⟩
      · intro seg hseg
        simp only [] at hseg
        rw [hsame] at hseg
        exact hA seg hseg
      · simp only []
        rw [hsame]
        exact hB
      · intro p2 hp2
        simp only [Option.some_inj] at hp2
        subst hp2
        refine ⟨⟨bf, hmem, rfl⟩, hbound, ?_⟩
        intro seg hseg
        simp only [] at hseg
        rw [hsame] at hseg
        rcases hsfq : st.segment_start_frame with _ | q
        · rw [hC2 hsfq] at hseg
          exact absurd hseg (by simp)
        · obtain ⟨_, hb, he⟩ := hC1 q hsfq
          intro e hee
          exact le_trans (he seg hseg e hee) (hb bf (List.mem_cons_self bf rest))
      · intro hp
        exact absurd hp (by simp)
    · refine ⟨?_, ?_, ?_, ?_⟩
      · intro seg hseg
        simp only [] at hseg
        rw [happ] at hseg
        rcases List.mem_append.mp hseg with hold | hnew
        · exact hA seg hold
        · rw [List.mem_singleton] at hnew
          subst hnew
          obtain ⟨hq, hb, _⟩ := hC1 p hsf
          exact ⟨p, bf.frame_index, hs0, he0, hb bf (List.mem_cons_self bf rest), hq,
            ⟨bf, hmem, rfl⟩⟩
      · simp only []
        rw [happ, List.pairwise_append]
        refine ⟨hB, by simp, ?_⟩
        intro a ha b hb2
        rw [List.mem_singleton] at hb2
        subst hb2
        intro ea sb hea hsb
        rw [hs0, Option.some_inj] at hsb
        subst hsb
        obtain ⟨_, _, he⟩ := hC1 p hsf
        exact he a ha ea hea
      · intro p2 hp2
        simp only [Option.some_inj] at hp2
        subst hp2
        refine ⟨⟨bf, hmem, rfl⟩, hbound, ?_⟩
        intro seg hseg
        simp only [] at hseg
        rw [happ] at hseg
        rcases List.mem_append.mp hseg with hold | hnew
        · obtain ⟨_, hb, he⟩ := hC1 p hsf
          intro e hee
          exact le_trans (he seg hold e hee) (hb bf (List.mem_cons_self bf rest))
        · rw [List.mem_singleton] at hnew
          subst hnew
          intro e hee
          rw [he0, Option.some_inj] at hee
          subst hee
          exact le_refl _
      · intro hp
        exact absurd hp (by simp)

/-- The possession scan establishes the invariant with nothing left to
process. -/
theorem possessionScan_inv (pts : List Track) (tm : String → Option Track)
    (maxd mind : ℚ) (F : List TrackFrame) :
    ∀ (rest : List TrackFrame) (st : PossState),
      rest.Pairwise (fun a b => a.frame_index ≤ b.frame_index) →
      (∀ f ∈ rest, f ∈ F) →
      PossInv F rest st →
      PossInv F [] (possessionScan pts tm maxd mind st rest) := by
  intro rest
  induction rest with
  | nil =>
      intro st _ _ h
      exact h
  | cons bf rest ih =>
      intro st hsort hsub hinv
      rw [possessionScan]
      refine ih _ (List.pairwise_cons.mp hsort).2
        (fun f hf => hsub f (List.mem_cons_of_mem _ hf)) ?_
      exact possessionStep_inv pts tm maxd mind F st bf rest
        (hsub bf (List.mem_cons_self bf rest)) (List.pairwise_cons.mp hsort).1 hinv

/-- C3 (amended): the possession segments of a frame-sorted primary ball
track all have their frame bounds set to frame indices occurring in that
ball track, each segment's start does not exceed its end, and in output
order a later segment starts no earlier than an earlier segment ends
(adjacent segments share the boundary frame at which the owner changed,
so equality — not strict inequality — is attained). -/
theorem infer_possessions_sorted_nonoverlapping (video_path : String)
    (track_data : TrackingResult) (maxd mind : ℚ) (bt : Track)
    (hbt : primaryBallTrack track_data.ball_tracks = some bt)
    (hsort : bt.frames.Pairwise (fun a b => a.frame_index ≤ b.frame_index)) :
    (∀ seg ∈ infer_possessions video_path track_data maxd mind, SegWF bt.frames seg) ∧
    (infer_possessions video_path track_data maxd mind).Pairwise SegBefore := by
  unfold infer_possessions
  split
  · simp
  · rw [hbt]
    simp only []
    split
    · simp
    · rename_i hne
      have hfin := possessionScan_inv track_data.player_tracks
        (pyDict (track_data.player_tracks.map fun t => (t.track_id, t))) maxd mind
        bt.frames bt.frames initPossState hsort (fun f hf => hf)
        ⟨by simp [initPossState], by simp [initPossState],
         fun p hp => absurd hp (by simp [initPossState]),
         fun _ => rfl⟩
      obtain ⟨hA, hB, hC1, hC2⟩ := hfin
      cases hlast : pyLastFrame bt.frames with
      | none =>
          obtain ⟨lf, hlf⟩ := pyLastFrame_ex bt.frames hne
          rw [hlf] at hlast
          exact absurd hlast (by simp)
      | some lf =>
          simp only []
          unfold flushPossessions
          rcases closePending_spec
            (pyDict (track_data.player_tracks.map fun t => (t.track_id, t)))
            mind _ lf.time_s lf.frame_index with hsame | ⟨p, seg0, hsf, happ, hs0, he0⟩
          · rw [hsame]
            exact ⟨hA, hB⟩
          · rw [happ]
            constructor
            · intro seg hseg
              rcases List.mem_append.mp hseg with hold | hnew
              · exact hA seg hold
              · rw [List.mem_singleton] at hnew
                subst hnew
                obtain ⟨⟨q, hq, hqi⟩, _, _⟩ := hC1 p hsf
                refine ⟨p, lf.frame_index, hs0, he0, ?_, ⟨q, hq, hqi⟩,
                  ⟨lf, pyLastFrame_mem bt.frames lf hlast, rfl⟩⟩
                rw [← hqi]
                exact pyLastFrame_bound bt.frames hsort lf hlast q hq
            · rw [List.pairwise_append]
              refine ⟨hB, by simp, ?_⟩
              intro a ha b hb2
              rw [List.mem_singleton] at hb2
              subst hb2
              intro ea sb hea hsb
              rw [hs0, Option.some_inj] at hsb
              subst hsb
              obtain ⟨_, _, he⟩ := hC1 p hsf
              exact he a ha ea hea

/-- Witness for C3's amended theorem on the concrete `trPoss`, whose two
segments share boundary frame 2. -/
theorem infer_possessions_sorted_nonoverlapping_witness :
    (primaryBallTrack trPoss.ball_tracks = some ballTrack3 ∧
      ballTrack3.frames.Pairwise (fun a b => a.frame_index ≤ b.frame_index)) ∧
    ((∀ seg ∈ infer_possessions "v" trPoss 60 (1 / 10), SegWF ballTrack3.frames seg) ∧
      (infer_possessions "v" trPoss 60 (1 / 10)).Pairwise SegBefore) :=
  ⟨⟨by decide, by decide⟩,
   infer_possessions_sorted_nonoverlapping "v" trPoss 60 (1 / 10) ballTrack3
     (by decide) (by decide)⟩

end Soccer
